import Mathlib

/-!
Verification of the tile-based text-editor rendering component
(`src/text-editor-component.js`).

The JavaScript source is shallowly embedded: numeric quantities that the
code manipulates with `Math.floor`, `Math.ceil`, `/` and `%` are modelled
as integers (`Int`), JS `Map`s are modelled as functions into `Option`,
fallible lookups return `Option`, and the update scheduler is modelled as
an explicit state machine emitting a trace of events.  Definitions keep
the source's names wherever Lean allows it.
-/

namespace Atom

/-- JS `Math.floor(a / b)` on integer operands: floor division. -/
def jsFloorDiv (a b : Int) : Int := Int.fdiv a b

/-- JS `Math.ceil(a / b)` on integer operands: ceiling division,
expressed through floor division of the negation. -/
def jsCeilDiv (a b : Int) : Int := -(Int.fdiv (-a) b)

/-- JS remainder operator `a % b`: remainder of truncated division,
carrying the sign of the dividend. -/
def jsRem (a b : Int) : Int := Int.tmod a b

/-- Source constant `DEFAULT_ROWS_PER_TILE = 6` (line 7). -/
def DEFAULT_ROWS_PER_TILE : Nat := 6

/-- The state read by the viewport/tile planner of `TextEditorComponent`:
the measured scroll offset and scroller height, the measured line height
(`this.measurements`), the `rowsPerTile` entry of `this.props`
(`0` models both an absent and a zero property, which JS `||` treats
alike), and the display model's `getApproximateScreenLineCount()`. -/
structure Component where
  scrollTop : Int
  scrollerHeight : Int
  lineHeight : Int
  rowsPerTileProp : Nat
  screenLineCount : Int

/-- Source `getRowsPerTile` (lines 640-642):
`this.props.rowsPerTile || DEFAULT_ROWS_PER_TILE`. -/
def getRowsPerTile (c : Component) : Int :=
  if c.rowsPerTileProp = 0 then (DEFAULT_ROWS_PER_TILE : Int)
  else (c.rowsPerTileProp : Int)

/-- Source `getFirstVisibleRow` (lines 668-671):
`Math.floor(scrollTop / lineHeight)`. -/
def getFirstVisibleRow (c : Component) : Int :=
  jsFloorDiv c.scrollTop c.lineHeight

/-- Source `getLastVisibleRow` (lines 673-679):
`min(approximateScreenLineCount - 1, firstVisibleRow + ceil(scrollerHeight / lineHeight))`. -/
def getLastVisibleRow (c : Component) : Int :=
  min (c.screenLineCount - 1)
    (getFirstVisibleRow c + jsCeilDiv c.scrollerHeight c.lineHeight)

/-- Source `getVisibleTileCount` (lines 648-650):
`Math.floor((lastVisibleRow - firstVisibleRow) / rowsPerTile) + 2`. -/
def getVisibleTileCount (c : Component) : Int :=
  jsFloorDiv (getLastVisibleRow c - getFirstVisibleRow c) (getRowsPerTile c) + 2

/-- Source `getTileStartRow` (lines 644-646): `row - (row % rowsPerTile)`. -/
def getTileStartRow (c : Component) (row : Int) : Int :=
  row - jsRem row (getRowsPerTile c)

/-- Source `getFirstTileStartRow` (lines 652-654). -/
def getFirstTileStartRow (c : Component) : Int :=
  getTileStartRow c (getFirstVisibleRow c)

/-- Source `getLastTileStartRow` (lines 656-658). -/
def getLastTileStartRow (c : Component) : Int :=
  getFirstTileStartRow c + (getVisibleTileCount c - 1) * getRowsPerTile c

/-- Source `getRenderedStartRow` (lines 660-662). -/
def getRenderedStartRow (c : Component) : Int := getFirstTileStartRow c

/-- Source `getRenderedEndRow` (lines 664-666):
`getFirstTileStartRow() + getVisibleTileCount() * getRowsPerTile()`. -/
def getRenderedEndRow (c : Component) : Int :=
  getFirstTileStartRow c + getVisibleTileCount c * getRowsPerTile c

/-- Source `renderLineTiles` slot computation (line 272, also line 187):
`(tileStartRow / rowsPerTile) % visibleTileCount`.  The JS `/` here is an
exact real division because tile start rows are integer multiples of
`rowsPerTile` at every call site, so it is embedded as integer division. -/
def tileIndex (c : Component) (tileStartRow : Int) : Int :=
  jsRem (tileStartRow / getRowsPerTile c) (getVisibleTileCount c)

/-- The tile start rows iterated by `renderLineTiles` (line 253) and
`renderLineNumberGutter` (line 160): `firstTileStartRow`,
`firstTileStartRow + rowsPerTile`, …, `lastTileStartRow`. -/
def isPlannedTileStartRow (c : Component) (t : Int) : Prop :=
  ∃ k : Int, 0 ≤ k ∧ k < getVisibleTileCount c ∧
    t = getFirstTileStartRow c + k * getRowsPerTile c

/-- Source `getLongestScreenLine` (lines 689-696): the second argument the
component passes to `displayLayer.populateSpatialIndexIfNeeded`, namely
`getTileStartRow(getLastVisibleRow()) + getRowsPerTile()` (line 693). -/
def longestLinePopulateRowBound (c : Component) : Int :=
  getTileStartRow c (getLastVisibleRow c) + getRowsPerTile c

theorem getRowsPerTile_pos (c : Component) : 0 < getRowsPerTile c := by
  unfold getRowsPerTile DEFAULT_ROWS_PER_TILE
  by_cases h : c.rowsPerTileProp = 0
  · simp [h]
  · simp only [h, if_false]
    exact_mod_cast Nat.pos_of_ne_zero h

theorem jsFloorDiv_eq_ediv (a b : Int) (hb : 0 ≤ b) : jsFloorDiv a b = a / b :=
  Int.fdiv_eq_ediv a hb

theorem jsRem_eq_emod (a b : Int) (ha : 0 ≤ a) (hb : 0 ≤ b) :
    jsRem a b = a % b :=
  Int.tmod_eq_emod ha hb

theorem firstVisibleRow_nonneg (c : Component)
    (hST : 0 ≤ c.scrollTop) (hLH : 0 < c.lineHeight) :
    0 ≤ getFirstVisibleRow c := by
  unfold getFirstVisibleRow
  rw [jsFloorDiv_eq_ediv _ _ (le_of_lt hLH)]
  exact Int.ediv_nonneg hST (le_of_lt hLH)

theorem getTileStartRow_eq_mul (c : Component) (row : Int) (h : 0 ≤ row) :
    getTileStartRow c row = getRowsPerTile c * (row / getRowsPerTile c) := by
  have hr := getRowsPerTile_pos c
  unfold getTileStartRow
  rw [jsRem_eq_emod row _ h (le_of_lt hr)]
  have := Int.ediv_add_emod row (getRowsPerTile c)
  omega

theorem getVisibleTileCount_eq (c : Component) :
    getVisibleTileCount c =
      (getLastVisibleRow c - getFirstVisibleRow c) / getRowsPerTile c + 2 := by
  have hr := getRowsPerTile_pos c
  unfold getVisibleTileCount
  rw [jsFloorDiv_eq_ediv _ _ (le_of_lt hr)]

theorem getFirstTileStartRow_eq_mul (c : Component)
    (h : 0 ≤ getFirstVisibleRow c) :
    getFirstTileStartRow c =
      getRowsPerTile c * (getFirstVisibleRow c / getRowsPerTile c) :=
  getTileStartRow_eq_mul c _ h

theorem lastVisible_lt_renderedEnd (c : Component)
    (hST : 0 ≤ c.scrollTop) (hLH : 0 < c.lineHeight) :
    getLastVisibleRow c < getRenderedEndRow c := by
  have hr := getRowsPerTile_pos c
  have hfvr0 := firstVisibleRow_nonneg c hST hLH
  set r := getRowsPerTile c with hrdef
  set fvr := getFirstVisibleRow c with hfvrdef
  set lvr := getLastVisibleRow c with hlvrdef
  have h1 : r * ((lvr - fvr) / r) + (lvr - fvr) % r = lvr - fvr :=
    Int.ediv_add_emod _ _
  have h2 : (lvr - fvr) % r < r := Int.emod_lt_of_pos _ hr
  have h3 : 0 ≤ (lvr - fvr) % r := Int.emod_nonneg _ (ne_of_gt hr)
  have h4 : r * (fvr / r) + fvr % r = fvr := Int.ediv_add_emod _ _
  have h5 : fvr % r < r := Int.emod_lt_of_pos _ hr
  have h6 : 0 ≤ fvr % r := Int.emod_nonneg _ (ne_of_gt hr)
  unfold getRenderedEndRow
  rw [getFirstTileStartRow_eq_mul c hfvr0, getVisibleTileCount_eq c,
    ← hfvrdef, ← hlvrdef, ← hrdef]
  nlinarith [h1, h2, h3, h4, h5, h6]

/-- C1: every visible row `R` (`firstVisibleRow ≤ R ≤ lastVisibleRow`) is
covered by exactly one planned tile start row `T` (with
`T ≤ R < T + rowsPerTile`), and every visible row lies inside the
rendered range `[getRenderedStartRow(), getRenderedEndRow())`. -/
theorem tile_coverage_unique (c : Component) (R : Int)
    (hST : 0 ≤ c.scrollTop) (hLH : 0 < c.lineHeight)
    (h1 : getFirstVisibleRow c ≤ R) (h2 : R ≤ getLastVisibleRow c) :
    (∃! t : Int, isPlannedTileStartRow c t ∧ t ≤ R ∧
      R < t + getRowsPerTile c) ∧
    getRenderedStartRow c ≤ R ∧ R < getRenderedEndRow c := by
  have hr := getRowsPerTile_pos c
  have hfvr0 := firstVisibleRow_nonneg c hST hLH
  have hR0 : 0 ≤ R := le_trans hfvr0 h1
  have hRend : R < getRenderedEndRow c :=
    lt_of_le_of_lt h2 (lastVisible_lt_renderedEnd c hST hLH)
  set r := getRowsPerTile c with hrdef
  set fvr := getFirstVisibleRow c with hfvrdef
  have hftsr : getFirstTileStartRow c = r * (fvr / r) :=
    getFirstTileStartRow_eq_mul c hfvr0
  have hstart : getRenderedStartRow c ≤ R := by
    unfold getRenderedStartRow
    rw [hftsr]
    calc r * (fvr / r) = fvr / r * r := by ring
    _ ≤ fvr := Int.ediv_mul_le fvr (ne_of_gt hr)
    _ ≤ R := h1
  -- the covering tile start row
  have hT0le : r * (R / r) ≤ R := by
    calc r * (R / r) = R / r * r := by ring
    _ ≤ R := Int.ediv_mul_le R (ne_of_gt hr)
  have hT0lt : R < r * (R / r) + r := by
    have hmod : r * (R / r) + R % r = R := Int.ediv_add_emod _ _
    have := Int.emod_lt_of_pos R hr
    omega
  have hkmul : r * (R / r) = getFirstTileStartRow c + (R / r - fvr / r) * r := by
    rw [hftsr]; ring
  have hk0 : 0 ≤ R / r - fvr / r := by
    have := Int.ediv_le_ediv hr h1
    omega
  have hkv : R / r - fvr / r < getVisibleTileCount c := by
    have hlt : getFirstTileStartRow c + (R / r - fvr / r) * r <
        getFirstTileStartRow c + getVisibleTileCount c * r := by
      rw [← hkmul]
      exact lt_of_le_of_lt hT0le hRend
    have hmul : (R / r - fvr / r) * r < getVisibleTileCount c * r := by omega
    exact lt_of_mul_lt_mul_right hmul (le_of_lt hr)
  refine ⟨⟨r * (R / r), ⟨⟨R / r - fvr / r, hk0, hkv, hkmul⟩, hT0le, hT0lt⟩,
    ?_⟩, hstart, hRend⟩
  rintro t ⟨⟨k, hk0', hkv', hteq⟩, htle, htlt⟩
  have htm : t = r * (fvr / r + k) := by rw [hteq, hftsr]; ring
  have hm1 : fvr / r + k ≤ R / r := by
    rw [Int.le_ediv_iff_mul_le hr]
    calc (fvr / r + k) * r = r * (fvr / r + k) := by ring
    _ = t := htm.symm
    _ ≤ R := htle
  have hm2 : R / r < fvr / r + k + 1 := by
    rw [Int.ediv_lt_iff_lt_mul hr]
    calc R < t + r := htlt
    _ = (fvr / r + k + 1) * r := by rw [htm]; ring
  have hmeq : fvr / r + k = R / r := by omega
  rw [htm, hmeq]

/-- C1 witness: the coverage theorem instantiated at a concrete
configuration (lineHeight 10, scroller height 100, rowsPerTile 6,
1000 screen lines, scrollTop 0) and visible row 7. -/
theorem tile_coverage_unique_witness :
    (0 : Int) ≤ (Component.mk 0 100 10 6 1000).scrollTop ∧
    (0 : Int) < (Component.mk 0 100 10 6 1000).lineHeight ∧
    getFirstVisibleRow (Component.mk 0 100 10 6 1000) ≤ 7 ∧
    (7 : Int) ≤ getLastVisibleRow (Component.mk 0 100 10 6 1000) ∧
    ((∃! t : Int, isPlannedTileStartRow (Component.mk 0 100 10 6 1000) t ∧
        t ≤ 7 ∧ (7 : Int) < t + getRowsPerTile (Component.mk 0 100 10 6 1000)) ∧
      getRenderedStartRow (Component.mk 0 100 10 6 1000) ≤ 7 ∧
      (7 : Int) < getRenderedEndRow (Component.mk 0 100 10 6 1000)) :=
  ⟨by decide, by decide, by decide, by decide,
    tile_coverage_unique (Component.mk 0 100 10 6 1000) 7
      (by decide) (by decide) (by decide) (by decide)⟩

theorem jsFloorDiv_mul_cancel (k L : Int) (h : L ≠ 0) :
    jsFloorDiv (k * L) L = k :=
  Int.mul_fdiv_cancel k h

theorem jsCeilDiv_mul_cancel (k L : Int) (h : L ≠ 0) :
    jsCeilDiv (k * L) L = k := by
  unfold jsCeilDiv
  rw [show -(k * L) = -k * L by ring, Int.mul_fdiv_cancel _ h, neg_neg]

/-- C3 counterexample: with lineHeight 10, scrollerHeight 100 (ten line
heights), rowsPerTile 6, a long document and scrollTop 0 the code yields
`getVisibleTileCount() = 3`, not 2 as the claim states; and after
scrolling to firstVisibleRow 7 the slot of the tile starting at row 12
differs from the slot that held the tile starting at row 0. -/
theorem scroll_scenario_counterexample :
    getVisibleTileCount (Component.mk 0 100 10 6 1000) ≠ 2 ∧
    tileIndex (Component.mk 70 100 10 6 1000) 12 ≠
      tileIndex (Component.mk 0 100 10 6 1000) 0 := by
  decide

/-- C3 amended: with lineHeight `L > 0`, scrollerHeight `10·L`,
rowsPerTile 6, a sufficiently long document and scrollTop 0 the code
renders three tiles starting at rows 0, 6 and 12; after scrolling so
that firstVisibleRow = 7, firstTileStartRow = 6 and the slot that held
the tile starting at row 0 (slot 0) now holds the planned tile starting
at row 18. -/
theorem scroll_scenario_amended (L N : Int) (hL : 0 < L) (hN : 18 ≤ N) :
    getVisibleTileCount (Component.mk 0 (10 * L) L 6 N) = 3 ∧
    getFirstTileStartRow (Component.mk 0 (10 * L) L 6 N) = 0 ∧
    getLastTileStartRow (Component.mk 0 (10 * L) L 6 N) = 12 ∧
    getFirstVisibleRow (Component.mk (7 * L) (10 * L) L 6 N) = 7 ∧
    getFirstTileStartRow (Component.mk (7 * L) (10 * L) L 6 N) = 6 ∧
    getVisibleTileCount (Component.mk (7 * L) (10 * L) L 6 N) = 3 ∧
    tileIndex (Component.mk 0 (10 * L) L 6 N) 0 = 0 ∧
    tileIndex (Component.mk (7 * L) (10 * L) L 6 N) 18 = 0 ∧
    isPlannedTileStartRow (Component.mk (7 * L) (10 * L) L 6 N) 18 := by
  have hL0 : L ≠ 0 := ne_of_gt hL
  have hrpt0 : getRowsPerTile (Component.mk 0 (10 * L) L 6 N) = 6 := rfl
  have hrpt7 : getRowsPerTile (Component.mk (7 * L) (10 * L) L 6 N) = 6 := rfl
  have hceil : jsCeilDiv (10 * L) L = 10 := jsCeilDiv_mul_cancel 10 L hL0
  have hfvr0 : getFirstVisibleRow (Component.mk 0 (10 * L) L 6 N) = 0 := by
    unfold getFirstVisibleRow jsFloorDiv
    exact Int.zero_fdiv L
  have hfvr7 : getFirstVisibleRow (Component.mk (7 * L) (10 * L) L 6 N) = 7 := by
    unfold getFirstVisibleRow
    exact jsFloorDiv_mul_cancel 7 L hL0
  have hlvr0 : getLastVisibleRow (Component.mk 0 (10 * L) L 6 N) = 10 := by
    unfold getLastVisibleRow
    rw [hfvr0, hceil]
    exact min_eq_right (by show (0 : Int) + 10 ≤ N - 1; omega)
  have hlvr7 : getLastVisibleRow (Component.mk (7 * L) (10 * L) L 6 N) = 17 := by
    unfold getLastVisibleRow
    rw [hfvr7, hceil]
    exact min_eq_right (by show (7 : Int) + 10 ≤ N - 1; omega)
  have hvtc0 : getVisibleTileCount (Component.mk 0 (10 * L) L 6 N) = 3 := by
    unfold getVisibleTileCount
    rw [hlvr0, hfvr0, hrpt0]
    decide
  have hvtc7 : getVisibleTileCount (Component.mk (7 * L) (10 * L) L 6 N) = 3 := by
    unfold getVisibleTileCount
    rw [hlvr7, hfvr7, hrpt7]
    decide
  have hftsr0 : getFirstTileStartRow (Component.mk 0 (10 * L) L 6 N) = 0 := by
    unfold getFirstTileStartRow getTileStartRow
    rw [hfvr0, hrpt0]
    decide
  have hftsr7 : getFirstTileStartRow (Component.mk (7 * L) (10 * L) L 6 N) = 6 := by
    unfold getFirstTileStartRow getTileStartRow
    rw [hfvr7, hrpt7]
    decide
  refine ⟨hvtc0, hftsr0, ?_, hfvr7, hftsr7, hvtc7, ?_, ?_, ?_⟩
  · unfold getLastTileStartRow
    rw [hftsr0, hvtc0, hrpt0]
    decide
  · unfold tileIndex
    rw [hrpt0, hvtc0]
    decide
  · unfold tileIndex
    rw [hrpt7, hvtc7]
    decide
  · refine ⟨2, by decide, ?_, ?_⟩
    · rw [hvtc7]; decide
    · rw [hftsr7, hrpt7]; decide

/-- C3 amended witness: the amended scenario at lineHeight 10 and a
document of 1000 screen lines. -/
theorem scroll_scenario_amended_witness :
    (0 : Int) < 10 ∧ (18 : Int) ≤ 1000 ∧
    (getVisibleTileCount (Component.mk 0 (10 * 10) 10 6 1000) = 3 ∧
      getFirstTileStartRow (Component.mk 0 (10 * 10) 10 6 1000) = 0 ∧
      getLastTileStartRow (Component.mk 0 (10 * 10) 10 6 1000) = 12 ∧
      getFirstVisibleRow (Component.mk (7 * 10) (10 * 10) 10 6 1000) = 7 ∧
      getFirstTileStartRow (Component.mk (7 * 10) (10 * 10) 10 6 1000) = 6 ∧
      getVisibleTileCount (Component.mk (7 * 10) (10 * 10) 10 6 1000) = 3 ∧
      tileIndex (Component.mk 0 (10 * 10) 10 6 1000) 0 = 0 ∧
      tileIndex (Component.mk (7 * 10) (10 * 10) 10 6 1000) 18 = 0 ∧
      isPlannedTileStartRow (Component.mk (7 * 10) (10 * 10) 10 6 1000) 18) :=
  ⟨by decide, by decide, scroll_scenario_amended 10 1000 (by decide) (by decide)⟩

/-- C6 counterexample: at scrollTop 0, lineHeight 10, scrollerHeight 100,
rowsPerTile 6 and 1000 screen lines, `getLongestScreenLine` passes row
bound 12 to `populateSpatialIndexIfNeeded`, which is strictly less than
`getRenderedEndRow() = 18` — refuting the claim that the bound is at
least `getRenderedEndRow()`. -/
theorem populate_bound_counterexample :
    ¬ (getRenderedEndRow (Component.mk 0 100 10 6 1000) ≤
        longestLinePopulateRowBound (Component.mk 0 100 10 6 1000)) := by
  decide

/-- C6 amended: the row bound `getTileStartRow(getLastVisibleRow()) +
getRowsPerTile()` passed to `populateSpatialIndexIfNeeded` does cover
every visible row — it is strictly greater than `getLastVisibleRow()` —
though it can be smaller than `getRenderedEndRow()`. -/
theorem populate_bound_covers_visible (c : Component)
    (hST : 0 ≤ c.scrollTop) (hLH : 0 < c.lineHeight)
    (hSH : 0 ≤ c.scrollerHeight) (hN : 1 ≤ c.screenLineCount) :
    getLastVisibleRow c < longestLinePopulateRowBound c := by
  have hr := getRowsPerTile_pos c
  have hfvr0 := firstVisibleRow_nonneg c hST hLH
  have hceil0 : 0 ≤ jsCeilDiv c.scrollerHeight c.lineHeight := by
    unfold jsCeilDiv
    have h1 : Int.fdiv (-c.scrollerHeight) c.lineHeight =
        -c.scrollerHeight / c.lineHeight :=
      Int.fdiv_eq_ediv _ (le_of_lt hLH)
    have h2 : -c.scrollerHeight / c.lineHeight ≤ 0 / c.lineHeight :=
      Int.ediv_le_ediv hLH (by omega)
    rw [Int.zero_ediv] at h2
    omega
  have hlvr0 : 0 ≤ getLastVisibleRow c := by
    unfold getLastVisibleRow
    exact le_min (by omega) (by omega)
  unfold longestLinePopulateRowBound getTileStartRow
  rw [jsRem_eq_emod _ _ hlvr0 (le_of_lt hr)]
  have := Int.emod_lt_of_pos (getLastVisibleRow c) hr
  omega

/-- C6 amended witness: the visible-coverage bound instantiated at a
concrete configuration. -/
theorem populate_bound_covers_visible_witness :
    (0 : Int) ≤ (Component.mk 0 100 10 6 1000).scrollTop ∧
    (0 : Int) < (Component.mk 0 100 10 6 1000).lineHeight ∧
    (0 : Int) ≤ (Component.mk 0 100 10 6 1000).scrollerHeight ∧
    (1 : Int) ≤ (Component.mk 0 100 10 6 1000).screenLineCount ∧
    getLastVisibleRow (Component.mk 0 100 10 6 1000) <
      longestLinePopulateRowBound (Component.mk 0 100 10 6 1000) :=
  ⟨by decide, by decide, by decide, by decide,
    populate_bound_covers_visible (Component.mk 0 100 10 6 1000)
      (by decide) (by decide) (by decide) (by decide)⟩

theorem emod_window_unique (B b j : Int) (hB : 0 < B)
    (hj0 : 0 ≤ j) (hjB : j < B) :
    ∃! k : Int, 0 ≤ k ∧ k < B ∧ (b + k) % B = j := by
  have hBne : B ≠ 0 := ne_of_gt hB
  refine ⟨(j - b) % B,
    ⟨Int.emod_nonneg _ hBne, Int.emod_lt_of_pos _ hB, ?_⟩, ?_⟩
  · have h1 : (b + (j - b) % B) % B = (b + (j - b)) % B := by
      rw [Int.add_emod b ((j - b) % B) B,
        Int.emod_emod_of_dvd _ (dvd_refl B), ← Int.add_emod b (j - b) B]
    rw [h1, show b + (j - b) = j by ring]
    exact Int.emod_eq_of_lt hj0 hjB
  · rintro k ⟨hk0, hkB, hk⟩
    have h1 : (b + k) % B = j % B := by rw [hk, Int.emod_eq_of_lt hj0 hjB]
    have h3 : (b + k - b) % B = (j - b) % B := by
      rw [Int.sub_emod (b + k) b B, h1, ← Int.sub_emod j b B]
    rw [show b + k - b = k by ring] at h3
    rw [← Int.emod_eq_of_lt hk0 hkB, h3]

/-- C8 counterexample: `getVisibleTileCount()` is not invariant to
scrollTop for fixed scrollerHeight, lineHeight and rowsPerTile.  With
scrollerHeight 100, lineHeight 10, rowsPerTile 6 and a 20-line document,
scrollTop 0 yields 3 tiles while scrollTop 150 (near the end of the
document, where `getLastVisibleRow` is clamped) yields 2. -/
theorem tile_count_invariance_counterexample :
    ¬ (∀ c c' : Component, c.scrollerHeight = c'.scrollerHeight →
        c.lineHeight = c'.lineHeight →
        c.rowsPerTileProp = c'.rowsPerTileProp →
        c.screenLineCount = c'.screenLineCount →
        getVisibleTileCount c = getVisibleTileCount c') := by
  intro h
  have h2 := h (Component.mk 0 100 10 6 20) (Component.mk 150 100 10 6 20)
    rfl rfl rfl rfl
  exact absurd h2 (by decide)

/-- C8 amended: for fixed scrollerHeight, lineHeight and rowsPerTile,
`getVisibleTileCount()` is the same at any two scroll positions at which
the viewport does not extend past the end of the document (so the clamp
in `getLastVisibleRow` is inactive); and in every frame the slot indices
`(tileStartRow / rowsPerTile) mod visibleTileCount` of the planned tiles
hit each slot in `{0, …, visibleTileCount − 1}` exactly once. -/
theorem tile_slots_amended (c c' : Component)
    (hSH : c.scrollerHeight = c'.scrollerHeight)
    (hLHeq : c.lineHeight = c'.lineHeight)
    (hRPT : c.rowsPerTileProp = c'.rowsPerTileProp)
    (hclamp : getFirstVisibleRow c +
      jsCeilDiv c.scrollerHeight c.lineHeight ≤ c.screenLineCount - 1)
    (hclamp' : getFirstVisibleRow c' +
      jsCeilDiv c'.scrollerHeight c'.lineHeight ≤ c'.screenLineCount - 1)
    (hST : 0 ≤ c.scrollTop) (hLH : 0 < c.lineHeight) :
    getVisibleTileCount c = getVisibleTileCount c' ∧
    ∀ j : Int, 0 ≤ j → j < getVisibleTileCount c →
      ∃! k : Int, 0 ≤ k ∧ k < getVisibleTileCount c ∧
        tileIndex c (getFirstTileStartRow c + k * getRowsPerTile c) = j := by
  have hr := getRowsPerTile_pos c
  have hfvr0 := firstVisibleRow_nonneg c hST hLH
  have hrpt : getRowsPerTile c = getRowsPerTile c' := by
    unfold getRowsPerTile
    rw [hRPT]
  have hceil : jsCeilDiv c.scrollerHeight c.lineHeight =
      jsCeilDiv c'.scrollerHeight c'.lineHeight := by
    rw [hSH, hLHeq]
  constructor
  · unfold getVisibleTileCount getLastVisibleRow
    rw [min_eq_right hclamp, min_eq_right hclamp', hrpt, hceil,
      add_sub_cancel_left, add_sub_cancel_left]
  · intro j hj0 hjv
    have hvtcpos : 0 < getVisibleTileCount c := lt_of_le_of_lt hj0 hjv
    have hb0 : 0 ≤ getFirstVisibleRow c / getRowsPerTile c :=
      Int.ediv_nonneg hfvr0 (le_of_lt hr)
    have hidx : ∀ k : Int, 0 ≤ k →
        tileIndex c (getFirstTileStartRow c + k * getRowsPerTile c) =
          (getFirstVisibleRow c / getRowsPerTile c + k) %
            getVisibleTileCount c := by
      intro k hk
      unfold tileIndex
      rw [getFirstTileStartRow_eq_mul c hfvr0,
        show getRowsPerTile c * (getFirstVisibleRow c / getRowsPerTile c) +
            k * getRowsPerTile c =
          (getFirstVisibleRow c / getRowsPerTile c + k) * getRowsPerTile c
          by ring,
        Int.mul_ediv_cancel _ (ne_of_gt hr)]
      exact jsRem_eq_emod _ _ (add_nonneg hb0 hk) (le_of_lt hvtcpos)
    obtain ⟨k, ⟨hk0, hkB, hkeq⟩, huniq⟩ :=
      emod_window_unique (getVisibleTileCount c)
        (getFirstVisibleRow c / getRowsPerTile c) j hvtcpos hj0 hjv
    refine ⟨k, ⟨hk0, hkB, by rw [hidx k hk0]; exact hkeq⟩, ?_⟩
    rintro k' ⟨hk0', hkB', hkeq'⟩
    exact huniq k' ⟨hk0', hkB', by rw [← hidx k' hk0']; exact hkeq'⟩

/-- C8 amended witness: the slot theorem at two concrete scroll positions
of a long document. -/
theorem tile_slots_amended_witness :
    (Component.mk 0 100 10 6 1000).scrollerHeight =
      (Component.mk 150 100 10 6 1000).scrollerHeight ∧
    (Component.mk 0 100 10 6 1000).lineHeight =
      (Component.mk 150 100 10 6 1000).lineHeight ∧
    (Component.mk 0 100 10 6 1000).rowsPerTileProp =
      (Component.mk 150 100 10 6 1000).rowsPerTileProp ∧
    getFirstVisibleRow (Component.mk 0 100 10 6 1000) +
      jsCeilDiv (Component.mk 0 100 10 6 1000).scrollerHeight
        (Component.mk 0 100 10 6 1000).lineHeight ≤
      (Component.mk 0 100 10 6 1000).screenLineCount - 1 ∧
    getFirstVisibleRow (Component.mk 150 100 10 6 1000) +
      jsCeilDiv (Component.mk 150 100 10 6 1000).scrollerHeight
        (Component.mk 150 100 10 6 1000).lineHeight ≤
      (Component.mk 150 100 10 6 1000).screenLineCount - 1 ∧
    (getVisibleTileCount (Component.mk 0 100 10 6 1000) =
        getVisibleTileCount (Component.mk 150 100 10 6 1000) ∧
      ∀ j : Int, 0 ≤ j → j < getVisibleTileCount (Component.mk 0 100 10 6 1000) →
        ∃! k : Int, 0 ≤ k ∧
          k < getVisibleTileCount (Component.mk 0 100 10 6 1000) ∧
          tileIndex (Component.mk 0 100 10 6 1000)
            (getFirstTileStartRow (Component.mk 0 100 10 6 1000) +
              k * getRowsPerTile (Component.mk 0 100 10 6 1000)) = j) :=
  ⟨rfl, rfl, rfl, by decide, by decide,
    tile_slots_amended (Component.mk 0 100 10 6 1000)
      (Component.mk 150 100 10 6 1000) rfl rfl rfl
      (by decide) (by decide) (by decide) (by decide)⟩

/-! ## Update scheduler (source lines 45-82, 446-482, 698-705)

The nine-step update cycle of `updateSync` is modelled as a state machine
emitting a trace of events.  The abstractions: the longest-line
comparison `longestLine !== this.previousLongestLine` (lines 66-72) is a
boolean `longestLineChanged` consumed by the cycle, and promise identity
is a counter (`promiseCounter`) issuing fresh ids. -/

inductive UpdateEvent
  | resolveCall
  | measureEditorDims
  | readLongestLine
  | clearPendingMeasurements
  | structuralCommit
  | measureLongestLineWidth
  | queryCursors
  | measureHorizontal
  | positionCursors
  | positionCommit
  | measureScrollPos
  | waiterNotified (id : Nat)
  deriving DecidableEq, Repr

structure SchedulerState where
  updateScheduled : Bool
  visible : Bool
  nextUpdatePromise : Option Nat
  promiseCounter : Nat
  staleEditorDimensions : Bool
  longestLineChanged : Bool
  deriving DecidableEq, Repr

/-- The synchronous call sequence of source `updateSync` (lines 56-82):
clear `updateScheduled`; invoke and clear the pending promise resolver
(lines 58-62); re-measure editor dimensions if flagged stale (line 64);
read the longest screen line (line 66); clear the pending-measurement
accumulator (line 74); first (structural) `etch.updateSync` commit
(line 75); measure the longest line if it changed (line 76); query
cursors (line 77); resolve horizontal measurements (line 78); position
cursors (line 79); second (position-only) commit (line 81). -/
def updateSyncCalls (s : SchedulerState) : SchedulerState × List UpdateEvent :=
  ({ s with updateScheduled := false, nextUpdatePromise := none,
            longestLineChanged := false },
    (if s.nextUpdatePromise.isSome then [UpdateEvent.resolveCall] else []) ++
    (if s.staleEditorDimensions then [UpdateEvent.measureEditorDims] else []) ++
    [UpdateEvent.readLongestLine, UpdateEvent.clearPendingMeasurements,
      UpdateEvent.structuralCommit] ++
    (if s.longestLineChanged then [UpdateEvent.measureLongestLineWidth] else []) ++
    [UpdateEvent.queryCursors, UpdateEvent.measureHorizontal,
      UpdateEvent.positionCursors, UpdateEvent.positionCommit])

/-- Source `updateSync` together with the JS microtask rule: the resolver
is invoked at the top of `updateSync` (lines 58-62), but a caller
awaiting the promise only resumes once the current synchronous call
stack has unwound — after the second commit — so the `waiterNotified`
observation is appended after every synchronous event of the cycle. -/
def updateSync (s : SchedulerState) : SchedulerState × List UpdateEvent :=
  match s.nextUpdatePromise with
  | some p => ((updateSyncCalls s).1,
      (updateSyncCalls s).2 ++ [UpdateEvent.waiterNotified p])
  | none => updateSyncCalls s

/-- Source `getNextUpdatePromise` (lines 698-705): returns the pending
promise, creating one if absent; promise identity is a fresh counter
value. -/
def getNextUpdatePromise (s : SchedulerState) : Nat × SchedulerState :=
  match s.nextUpdatePromise with
  | some p => (p, s)
  | none =>
    (s.promiseCounter,
      { s with nextUpdatePromise := some s.promiseCounter,
               promiseCounter := s.promiseCounter + 1 })

/-- Source `didScroll` (lines 473-476): measures the scroll position and
then runs `updateSync` unconditionally — it performs no visibility
check. -/
def didScroll (s : SchedulerState) : SchedulerState × List UpdateEvent :=
  ((updateSync s).1, UpdateEvent.measureScrollPos :: (updateSync s).2)

/-- Source `didHide` (lines 446-451): clears the `visible` flag and
informs the model; it cancels nothing and gates nothing. -/
def didHide (s : SchedulerState) : SchedulerState :=
  if s.visible then { s with visible := false } else s

/-- The callback `scheduleUpdate` registers with the etch scheduler
(lines 50-52): `if (this.updateScheduled) this.updateSync()` — again with
no visibility check. -/
def flushScheduledUpdate (s : SchedulerState) : SchedulerState × List UpdateEvent :=
  if s.updateScheduled then updateSync s else (s, [])

/-- C2: when a caller awaits the next-update promise, one update cycle
notifies it exactly once, the notification lands after the second
(position-only) commit of the cycle, the wait handle is reset, and a
subsequent `getNextUpdatePromise` yields a fresh promise. -/
theorem next_update_promise_protocol (s : SchedulerState) (p : Nat)
    (hp : s.nextUpdatePromise = some p) (hwf : p < s.promiseCounter) :
    (updateSync s).2.count (UpdateEvent.waiterNotified p) = 1 ∧
    (updateSync s).2.getLast? = some (UpdateEvent.waiterNotified p) ∧
    UpdateEvent.positionCommit ∈ (updateSync s).2.dropLast ∧
    (updateSync s).1.nextUpdatePromise = none ∧
    (getNextUpdatePromise (updateSync s).1).1 ≠ p := by
  unfold updateSync updateSyncCalls getNextUpdatePromise
  rw [hp]
  cases hs : s.staleEditorDimensions <;> cases hl : s.longestLineChanged <;>
    simp [List.count_append, List.count_cons, hwf.ne] <;> omega

/-- C2 witness: the promise protocol at a concrete scheduler state with a
pending waiter of promise id 0. -/
theorem next_update_promise_protocol_witness :
    (SchedulerState.mk false true (some 0) 1 false false).nextUpdatePromise =
      some 0 ∧
    0 < (SchedulerState.mk false true (some 0) 1 false false).promiseCounter ∧
    ((updateSync (SchedulerState.mk false true (some 0) 1 false false)).2.count
        (UpdateEvent.waiterNotified 0) = 1 ∧
      (updateSync (SchedulerState.mk false true (some 0) 1 false false)).2.getLast? =
        some (UpdateEvent.waiterNotified 0) ∧
      UpdateEvent.positionCommit ∈
        (updateSync (SchedulerState.mk false true (some 0) 1 false false)).2.dropLast ∧
      (updateSync (SchedulerState.mk false true (some 0) 1 false false)).1.nextUpdatePromise =
        none ∧
      (getNextUpdatePromise
        (updateSync (SchedulerState.mk false true (some 0) 1 false false)).1).1 ≠ 0) :=
  ⟨rfl, by decide,
    next_update_promise_protocol (SchedulerState.mk false true (some 0) 1 false false)
      0 rfl (by decide)⟩

/-- C7 counterexample: a concrete hidden component (after `didHide`) on
which `didScroll` still performs the full render/measure/reposition
sequence, and whose scheduled coalesced update still runs — refuting the
claim that a hidden view performs no update work. -/
theorem hidden_view_counterexample :
    (didHide (SchedulerState.mk true true none 0 false false)).visible = false ∧
    UpdateEvent.structuralCommit ∈
      (didScroll (didHide (SchedulerState.mk true true none 0 false false))).2 ∧
    UpdateEvent.measureHorizontal ∈
      (didScroll (didHide (SchedulerState.mk true true none 0 false false))).2 ∧
    UpdateEvent.positionCommit ∈
      (didScroll (didHide (SchedulerState.mk true true none 0 false false))).2 ∧
    UpdateEvent.structuralCommit ∈
      (flushScheduledUpdate
        (didHide (SchedulerState.mk true true none 0 false false))).2 := by
  decide

/-- C7 amended: visibility does not gate update work at all — `didHide`
only clears the `visible` flag (it does not cancel a scheduled update),
`didScroll` emits exactly the same update trace whether the view is
hidden or shown, and both a direct `didScroll` and a previously
scheduled coalesced update execute the render, measurement and
reposition steps while hidden. -/
theorem hidden_update_not_gated (s : SchedulerState) :
    (didScroll { s with visible := false }).2 =
      (didScroll { s with visible := true }).2 ∧
    UpdateEvent.structuralCommit ∈ (didScroll { s with visible := false }).2 ∧
    UpdateEvent.measureHorizontal ∈ (didScroll { s with visible := false }).2 ∧
    UpdateEvent.positionCommit ∈ (didScroll { s with visible := false }).2 ∧
    (didHide s).updateScheduled = s.updateScheduled ∧
    (s.updateScheduled = true →
      UpdateEvent.structuralCommit ∈
        (flushScheduledUpdate { s with visible := false }).2) := by
  refine ⟨?_, ?_, ?_, ?_, ?_, ?_⟩
  · unfold didScroll updateSync updateSyncCalls
    cases s.nextUpdatePromise <;> rfl
  · unfold didScroll updateSync updateSyncCalls
    cases s.nextUpdatePromise <;> simp
  · unfold didScroll updateSync updateSyncCalls
    cases s.nextUpdatePromise <;> simp
  · unfold didScroll updateSync updateSyncCalls
    cases s.nextUpdatePromise <;> simp
  · unfold didHide
    by_cases h : s.visible <;> simp [h]
  · intro hsched
    unfold flushScheduledUpdate updateSync updateSyncCalls
    rw [show ({ s with visible := false } : SchedulerState).updateScheduled =
      true from hsched]
    cases s.nextUpdatePromise <;> simp

/-- C7 amended witness: the ungated-update theorem at a concrete state
with a scheduled update pending. -/
theorem hidden_update_not_gated_witness :
    (SchedulerState.mk true true none 0 false false).updateScheduled = true ∧
    ((didScroll { SchedulerState.mk true true none 0 false false with
        visible := false }).2 =
      (didScroll { SchedulerState.mk true true none 0 false false with
        visible := true }).2 ∧
    UpdateEvent.structuralCommit ∈
      (didScroll { SchedulerState.mk true true none 0 false false with
        visible := false }).2 ∧
    UpdateEvent.measureHorizontal ∈
      (didScroll { SchedulerState.mk true true none 0 false false with
        visible := false }).2 ∧
    UpdateEvent.positionCommit ∈
      (didScroll { SchedulerState.mk true true none 0 false false with
        visible := false }).2 ∧
    (didHide (SchedulerState.mk true true none 0 false false)).updateScheduled =
      (SchedulerState.mk true true none 0 false false).updateScheduled ∧
    ((SchedulerState.mk true true none 0 false false).updateScheduled = true →
      UpdateEvent.structuralCommit ∈
        (flushScheduledUpdate { SchedulerState.mk true true none 0 false false with
          visible := false }).2)) ∧
    UpdateEvent.structuralCommit ∈
      (flushScheduledUpdate { SchedulerState.mk true true none 0 false false with
        visible := false }).2 :=
  ⟨rfl, hidden_update_not_gated (SchedulerState.mk true true none 0 false false),
    (hidden_update_not_gated
      (SchedulerState.mk true true none 0 false false)).2.2.2.2.2 rfl⟩

/-! ## Horizontal measurement (source lines 529-596) -/

/-- One value of `horizontalPixelPositionsByScreenLineId` (line 29): a
per-line map from column to horizontal pixel offset. -/
abbrev PosMap := Nat → Option Int

/-- Map update, modelling `positions.set(column, value)`. -/
def PosMap.set (m : PosMap) (k : Nat) (v : Int) : PosMap :=
  fun j => if j = k then some v else m j

/-- Well-formedness of a position map: the entry for column 0, if
present, is 0 — the only write to column 0 in the source is
`positions.set(0, 0)` (line 567), so every map the component builds
satisfies this. -/
def PosMap.wf (m : PosMap) : Prop := ∀ v : Int, m 0 = some v → v = 0

/-- One rendering-surface range query issued by
`measureHorizontalPositionsOnLine`: the text node index, the end offset
of the measured range within that node, and whether the trailing
(`right`) rather than leading (`left`) edge is read. -/
structure RangeQuery where
  nodeIndex : Nat
  endOffset : Nat
  useRight : Bool
  deriving DecidableEq, Repr

/-- Result of a measurement sweep: the updated position map, the
remaining text-node lengths with the running node index and start column
(`textNodesIndex` / `textNodeStartColumn` in the source), and the range
queries issued. -/
structure MeasureResult where
  positions : PosMap
  nodes : List Nat
  tnIdx : Nat
  tnStart : Nat
  queries : List RangeQuery

/-- One iteration of the `columnLoop` of
`measureHorizontalPositionsOnLine` (source lines 562-595) for a single
requested column.  Column 0 is written as offset 0 without a surface
query (lines 566-569); an already-present column is skipped (line 570);
a column inside or at the end of the current text node is measured with
one range query — the leading edge of a one-character range when the
column is the run start (lines 576-580), the trailing edge of a
sub-range otherwise (lines 581-586) — and stored relative to the line
node's own left edge (line 588); otherwise the walk advances to the next
node (lines 590-593).  `q nodeIdx endOffset useRight` is the rendering
surface's answer to a range query and `lineLeft` the line node's left
edge (read lazily in the source but constant within one call). -/
def measureColumn (q : Nat → Nat → Bool → Int) (lineLeft : Int) (col : Nat) :
    PosMap → List Nat → Nat → Nat → MeasureResult
  | pos, [], tnIdx, tnStart => ⟨pos, [], tnIdx, tnStart, []⟩
  | pos, len :: rest, tnIdx, tnStart =>
    if col = 0 then ⟨pos.set 0 0, len :: rest, tnIdx, tnStart, []⟩
    else if (pos col).isSome then ⟨pos, len :: rest, tnIdx, tnStart, []⟩
    else if col ≤ tnStart + len then
      if col = tnStart then
        ⟨pos.set col (q tnIdx 1 false - lineLeft), len :: rest, tnIdx, tnStart,
          [⟨tnIdx, 1, false⟩]⟩
      else
        ⟨pos.set col (q tnIdx (col - tnStart) true - lineLeft), len :: rest,
          tnIdx, tnStart, [⟨tnIdx, col - tnStart, true⟩]⟩
    else measureColumn q lineLeft col pos rest (tnIdx + 1) (tnStart + len)

/-- The full `columnLoop` (lines 562-595): the walk state
(`textNodesIndex`, `textNodeStartColumn`) persists across requested
columns, so the sweep is a single pass over runs and columns. -/
def measureColumnsLoop (q : Nat → Nat → Bool → Int) (lineLeft : Int) :
    List Nat → PosMap → List Nat → Nat → Nat → MeasureResult
  | [], pos, nodes, tnIdx, tnStart => ⟨pos, nodes, tnIdx, tnStart, []⟩
  | col :: cols, pos, nodes, tnIdx, tnStart =>
    let r1 := measureColumn q lineLeft col pos nodes tnIdx tnStart
    let r2 := measureColumnsLoop q lineLeft cols r1.positions r1.nodes
      r1.tnIdx r1.tnStart
    ⟨r2.positions, r2.nodes, r2.tnIdx, r2.tnStart, r1.queries ++ r2.queries⟩

/-- Stable ascending insertion, modelling one step of
`columnsToMeasure.sort((a, b) => a - b)` (line 540). -/
def insertAscending (x : Nat) : List Nat → List Nat
  | [] => [x]
  | y :: ys => if x ≤ y then x :: y :: ys else y :: insertAscending x ys

/-- The ascending sort applied to a row's requested columns (line 540). -/
def sortColumns : List Nat → List Nat
  | [] => []
  | x :: xs => insertAscending x (sortColumns xs)

/-- Source `measureHorizontalPositionsOnLine` (lines 555-596) for one
row, together with the ascending sort its caller applies at line 540:
sweep the line's text nodes once over the sorted requested columns. -/
def measureHorizontalPositionsOnLine (q : Nat → Nat → Bool → Int)
    (lineLeft : Int) (textNodeLengths : List Nat)
    (columnsToMeasure : List Nat) (positions : PosMap) : MeasureResult :=
  measureColumnsLoop q lineLeft (sortColumns columnsToMeasure) positions
    textNodeLengths 0 0

/-- Source `requestHorizontalMeasurement` (lines 529-536): appends the
column to the row's pending list; duplicates are kept and deduplicated
only through the cache during measurement. -/
def requestHorizontalMeasurement (pending : Nat → List Nat)
    (row column : Nat) : Nat → List Nat :=
  fun r => if r = row then pending r ++ [column] else pending r

theorem measureColumn_wf (q : Nat → Nat → Bool → Int) (lineLeft : Int)
    (col : Nat) :
    ∀ (nodes : List Nat) (pos : PosMap) (tnIdx tnStart : Nat), pos.wf →
      (measureColumn q lineLeft col pos nodes tnIdx tnStart).positions.wf := by
  intro nodes
  induction nodes with
  | nil => intro pos tnIdx tnStart h; exact h
  | cons len rest ih =>
    intro pos tnIdx tnStart h
    unfold measureColumn
    by_cases h0 : col = 0
    · subst h0
      simp only [if_pos rfl]
      intro v hv
      simp [PosMap.set] at hv
      omega
    · simp only [if_neg h0]
      by_cases hsome : (pos col).isSome
      · simp only [if_pos hsome]; exact h
      · simp only [if_neg hsome]
        by_cases hle : col ≤ tnStart + len
        · simp only [if_pos hle]
          by_cases hst : col = tnStart
          · simp only [if_pos hst]
            intro v hv
            simp [PosMap.set, Ne.symm h0] at hv
            exact h v hv
          · simp only [if_neg hst]
            intro v hv
            simp [PosMap.set, Ne.symm h0] at hv
            exact h v hv
        · simp only [if_neg hle]
          exact ih pos (tnIdx + 1) (tnStart + len) h

theorem measureColumn_cached_or_exhausted (q : Nat → Nat → Bool → Int)
    (lineLeft : Int) (col : Nat) :
    ∀ (nodes : List Nat) (pos : PosMap) (tnIdx tnStart : Nat),
      ((measureColumn q lineLeft col pos nodes tnIdx tnStart).positions
        col).isSome ∨
      (measureColumn q lineLeft col pos nodes tnIdx tnStart).nodes = [] := by
  intro nodes
  induction nodes with
  | nil => intro pos tnIdx tnStart; right; rfl
  | cons len rest ih =>
    intro pos tnIdx tnStart
    unfold measureColumn
    by_cases h0 : col = 0
    · subst h0
      left
      simp [PosMap.set]
    · simp only [if_neg h0]
      by_cases hsome : (pos col).isSome
      · simp only [if_pos hsome]; left; exact hsome
      · simp only [if_neg hsome]
        by_cases hle : col ≤ tnStart + len
        · simp only [if_pos hle]
          by_cases hst : col = tnStart
          · simp only [if_pos hst]; left; simp [PosMap.set]
          · simp only [if_neg hst]; left; simp [PosMap.set]
        · simp only [if_neg hle]
          exact ih pos (tnIdx + 1) (tnStart + len)

theorem measureColumn_skip (q : Nat → Nat → Bool → Int) (lineLeft : Int)
    (col : Nat) (nodes : List Nat) (pos : PosMap) (tnIdx tnStart : Nat)
    (hwf : pos.wf) (h : (pos col).isSome ∨ nodes = []) :
    measureColumn q lineLeft col pos nodes tnIdx tnStart =
      ⟨pos, nodes, tnIdx, tnStart, []⟩ := by
  cases nodes with
  | nil => rfl
  | cons len rest =>
    rcases h with hsome | hnil
    · unfold measureColumn
      by_cases h0 : col = 0
      · subst h0
        obtain ⟨v, hv⟩ := Option.isSome_iff_exists.mp hsome
        have hv0 : v = 0 := hwf v hv
        subst hv0
        have hset : pos.set 0 0 = pos := by
          funext j
          by_cases hj : j = 0
          · subst hj; simp [PosMap.set, hv]
          · simp [PosMap.set, hj]
        simp [hset]
      · simp only [if_neg h0, if_pos hsome]
    · exact absurd hnil (by simp)

theorem measureColumn_preserves (q : Nat → Nat → Bool → Int) (lineLeft : Int)
    (col : Nat) :
    ∀ (nodes : List Nat) (pos : PosMap) (tnIdx tnStart : Nat), pos.wf →
      ∀ (k : Nat) (v : Int), pos k = some v →
        (measureColumn q lineLeft col pos nodes tnIdx tnStart).positions k =
          some v := by
  intro nodes
  induction nodes with
  | nil => intro pos tnIdx tnStart _ k v hk; exact hk
  | cons len rest ih =>
    intro pos tnIdx tnStart hwf k v hk
    unfold measureColumn
    by_cases h0 : col = 0
    · subst h0
      simp only [if_pos rfl]
      by_cases hkk : k = 0
      · subst hkk
        have : v = 0 := hwf v hk
        subst this
        simp [PosMap.set]
      · simp [PosMap.set, hkk, hk]
    · simp only [if_neg h0]
      by_cases hsome : (pos col).isSome
      · simp only [if_pos hsome]; exact hk
      · simp only [if_neg hsome]
        by_cases hle : col ≤ tnStart + len
        · have hkc : k ≠ col := by
            intro hkc
            subst hkc
            rw [hk] at hsome
            simp at hsome
          simp only [if_pos hle]
          by_cases hst : col = tnStart
          · simp only [if_pos hst]
            simp [PosMap.set, hkc, hk]
          · simp only [if_neg hst]
            simp [PosMap.set, hkc, hk]
        · simp only [if_neg hle]
          exact ih pos (tnIdx + 1) (tnStart + len) hwf k v hk

theorem measureColumnsLoop_preserves (q : Nat → Nat → Bool → Int)
    (lineLeft : Int) :
    ∀ (cols : List Nat) (pos : PosMap) (nodes : List Nat)
      (tnIdx tnStart : Nat), pos.wf →
      ∀ (k : Nat) (v : Int), pos k = some v →
        (measureColumnsLoop q lineLeft cols pos nodes tnIdx tnStart).positions
          k = some v := by
  intro cols
  induction cols with
  | nil => intro pos nodes tnIdx tnStart _ k v hk; exact hk
  | cons col cols ih =>
    intro pos nodes tnIdx tnStart hwf k v hk
    unfold measureColumnsLoop
    exact ih _ _ _ _ (measureColumn_wf q lineLeft col nodes pos tnIdx tnStart hwf)
      k v (measureColumn_preserves q lineLeft col nodes pos tnIdx tnStart hwf k v hk)

theorem measureColumnsLoop_pair (q : Nat → Nat → Bool → Int) (lineLeft : Int)
    (c : Nat) (pos : PosMap) (nodes : List Nat) (tnIdx tnStart : Nat)
    (hwf : pos.wf) :
    measureColumnsLoop q lineLeft [c, c] pos nodes tnIdx tnStart =
      measureColumnsLoop q lineLeft [c] pos nodes tnIdx tnStart := by
  have hwf1 := measureColumn_wf q lineLeft c nodes pos tnIdx tnStart hwf
  have hA := measureColumn_cached_or_exhausted q lineLeft c nodes pos tnIdx tnStart
  have hskip := measureColumn_skip q lineLeft c
    (measureColumn q lineLeft c pos nodes tnIdx tnStart).nodes
    (measureColumn q lineLeft c pos nodes tnIdx tnStart).positions
    (measureColumn q lineLeft c pos nodes tnIdx tnStart).tnIdx
    (measureColumn q lineLeft c pos nodes tnIdx tnStart).tnStart
    hwf1 hA
  simp only [measureColumnsLoop, hskip]
  simp

theorem measureOnLine_cached_noop (q : Nat → Nat → Bool → Int)
    (lineLeft : Int) (lens : List Nat) (pos : PosMap) (c : Nat) (v : Int)
    (hwf : pos.wf) (hc : pos c = some v) :
    (measureHorizontalPositionsOnLine q lineLeft lens [c] pos).queries = [] ∧
    ∀ k, (measureHorizontalPositionsOnLine q lineLeft lens [c] pos).positions
      k = pos k := by
  have hskip := measureColumn_skip q lineLeft c lens pos 0 0 hwf
    (Or.inl (by rw [hc]; rfl))
  unfold measureHorizontalPositionsOnLine
  have hsort : sortColumns [c] = [c] := rfl
  rw [hsort]
  simp only [measureColumnsLoop, hskip]
  simp

/-- C5: horizontal measurement is idempotent.  (1) Measuring a row whose
pending list holds the same column twice produces the same result — map,
walk state and issued queries — as measuring it once.  (2) A later
measurement pass never overwrites an existing cache entry.  (3)
Re-requesting an already-cached column on a still-rendered line leaves
the cache unchanged and issues no rendering-surface range query. -/
theorem measurement_idempotent :
    (∀ (q : Nat → Nat → Bool → Int) (lineLeft : Int) (lens : List Nat)
        (pos : PosMap) (c : Nat), pos.wf →
      measureHorizontalPositionsOnLine q lineLeft lens [c, c] pos =
        measureHorizontalPositionsOnLine q lineLeft lens [c] pos) ∧
    (∀ (q : Nat → Nat → Bool → Int) (lineLeft : Int) (lens : List Nat)
        (cols : List Nat) (pos : PosMap) (k : Nat) (v : Int), pos.wf →
      pos k = some v →
      (measureHorizontalPositionsOnLine q lineLeft lens cols pos).positions
        k = some v) ∧
    (∀ (q : Nat → Nat → Bool → Int) (lineLeft : Int) (lens : List Nat)
        (pos : PosMap) (c : Nat) (v : Int), pos.wf → lens ≠ [] →
      pos c = some v →
      (measureHorizontalPositionsOnLine q lineLeft lens [c] pos).queries =
        [] ∧
      ∀ k, (measureHorizontalPositionsOnLine q lineLeft lens [c]
        pos).positions k = pos k) := by
  refine ⟨?_, ?_, ?_⟩
  · intro q lineLeft lens pos c hwf
    unfold measureHorizontalPositionsOnLine
    have h2 : sortColumns [c, c] = [c, c] := by
      simp [sortColumns, insertAscending]
    have h1 : sortColumns [c] = [c] := rfl
    rw [h1, h2]
    exact measureColumnsLoop_pair q lineLeft c pos lens 0 0 hwf
  · intro q lineLeft lens cols pos k v hwf hk
    exact measureColumnsLoop_preserves q lineLeft (sortColumns cols) pos lens
      0 0 hwf k v hk
  · intro q lineLeft lens pos c v hwf _ hc
    exact measureOnLine_cached_noop q lineLeft lens pos c v hwf hc

/-- C5 witness: idempotence instantiated at a one-node line with column 2
already cached at offset 7. -/
theorem measurement_idempotent_witness :
    PosMap.wf (fun k => if k = 2 then some 7 else none) ∧
    ([3] : List Nat) ≠ [] ∧
    (fun k => if k = 2 then some 7 else none) 2 = some 7 ∧
    ((measureHorizontalPositionsOnLine (fun _ _ _ => 10) 0 [3] [2]
        (fun k => if k = 2 then some 7 else none)).queries = [] ∧
      ∀ k, (measureHorizontalPositionsOnLine (fun _ _ _ => 10) 0 [3] [2]
        (fun k => if k = 2 then some 7 else none)).positions k =
        (fun k => if k = 2 then some 7 else none) k) ∧
    measureHorizontalPositionsOnLine (fun _ _ _ => 10) 0 [3] [2, 2]
        (fun k => if k = 2 then some 7 else none) =
      measureHorizontalPositionsOnLine (fun _ _ _ => 10) 0 [3] [2]
        (fun k => if k = 2 then some 7 else none) := by
  have hwf : PosMap.wf (fun k => if k = 2 then some 7 else none) := by
    intro v hv
    simp at hv
  refine ⟨hwf, by simp, rfl, ?_, ?_⟩
  · exact measurement_idempotent.2.2 (fun _ _ _ => 10) 0 [3]
      (fun k => if k = 2 then some 7 else none) 2 7 hwf (by simp) rfl
  · exact measurement_idempotent.1 (fun _ _ _ => 10) 0 [3]
      (fun k => if k = 2 then some 7 else none) 2 hwf

/-! ## Cursor geometry (source lines 372-422, 598-608) -/

/-- One element of `this.cursorsToRender` (source lines 394-397). -/
structure CursorToRender where
  row : Nat
  column : Nat
  columnWidth : Nat
  pixelTop : Int
  pixelLeft : Int
  pixelWidth : Int
  deriving DecidableEq, Repr

/-- Source `pixelTopForScreenRow` (lines 598-600): `row * lineHeight`. -/
def pixelTopForScreenRow (lineHeight : Int) (row : Nat) : Int :=
  (row : Int) * lineHeight

/-- Source `pixelLeftForScreenRowAndColumn` (lines 602-608): column 0 is
0 without any lookup; otherwise the cached offset of the column in the
row's screen line's entry of `horizontalPixelPositionsByScreenLineId`.
`screenLineIdForRow` models `displayLayer.getScreenLine(row).id`;
`none` models the stale-reference condition the source leaves to a
`debugger` statement / an undefined lookup. -/
def pixelLeftForScreenRowAndColumn (screenLineIdForRow : Nat → Nat)
    (cache : Nat → Option PosMap) (row column : Nat) : Option Int :=
  if column = 0 then some 0
  else (cache (screenLineIdForRow row)).bind fun m => m column

/-- The body of the `queryCursorsToRender` loop (source lines 384-402)
for one cursor marker with head screen position `(row, column)`: the
cursor's column is requested for measurement; when the column is before
the end of its screen line (`lineLengthForScreenRow(row) > column`,
line 390) `columnWidth = 1` and `column + 1` is requested as well,
otherwise `columnWidth = 0`; pixel fields start at 0.  The second
component lists the issued measurement requests. -/
def queryCursorForMarker (lineLengthForScreenRow : Nat → Nat)
    (row column : Nat) : CursorToRender × List (Nat × Nat) :=
  if lineLengthForScreenRow row > column then
    (⟨row, column, 1, 0, 0, 0⟩, [(row, column), (row, column + 1)])
  else
    (⟨row, column, 0, 0, 0, 0⟩, [(row, column)])

/-- The body of the `positionCursorsToRender` loop (source lines
407-421): `pixelTop = pixelTopForScreenRow(row)`, `pixelLeft =
pixelLeftForScreenRowAndColumn(row, column)`, `pixelRight = pixelLeft`
when `columnWidth = 0` and the offset of `column + 1` otherwise, and
`pixelWidth = pixelRight - pixelLeft`; `none` when a needed offset is
absent from the cache. -/
def positionCursorToRender (lineHeight : Int)
    (screenLineIdForRow : Nat → Nat) (cache : Nat → Option PosMap)
    (cur : CursorToRender) : Option CursorToRender :=
  (pixelLeftForScreenRowAndColumn screenLineIdForRow cache cur.row
      cur.column).bind fun pixelLeft =>
    (if cur.columnWidth = 0 then some pixelLeft
     else pixelLeftForScreenRowAndColumn screenLineIdForRow cache cur.row
       (cur.column + 1)).map fun pixelRight =>
      { cur with
        pixelTop := pixelTopForScreenRow lineHeight cur.row
        pixelLeft := pixelLeft
        pixelWidth := pixelRight - pixelLeft }

/-- C4: for a cursor at `(row, column)` with `column` within its screen
line, if the column equals the line length then `columnWidth = 0` and the
positioned cursor has `pixelWidth = 0`; otherwise `columnWidth = 1` and,
with the measured offsets in the cache, the positioned cursor has
`pixelTop = row * lineHeight`, `pixelLeft = offset(column)` and
`pixelWidth = offset(column + 1) - offset(column)` — the measured advance
of the glyph at the cursor. -/
theorem cursor_geometry (lineLengthForScreenRow : Nat → Nat)
    (lineHeight : Int) (screenLineIdForRow : Nat → Nat)
    (cache : Nat → Option PosMap) (row column : Nat) (offL offR : Int)
    (hL : pixelLeftForScreenRowAndColumn screenLineIdForRow cache row column =
      some offL)
    (hR : pixelLeftForScreenRowAndColumn screenLineIdForRow cache row
      (column + 1) = some offR) :
    (column = lineLengthForScreenRow row →
      (queryCursorForMarker lineLengthForScreenRow row column).1.columnWidth =
        0 ∧
      positionCursorToRender lineHeight screenLineIdForRow cache
          (queryCursorForMarker lineLengthForScreenRow row column).1 =
        some ⟨row, column, 0, (row : Int) * lineHeight, offL, 0⟩) ∧
    (column < lineLengthForScreenRow row →
      (queryCursorForMarker lineLengthForScreenRow row column).1.columnWidth =
        1 ∧
      positionCursorToRender lineHeight screenLineIdForRow cache
          (queryCursorForMarker lineLengthForScreenRow row column).1 =
        some ⟨row, column, 1, (row : Int) * lineHeight, offL, offR - offL⟩) := by
  constructor
  · intro heq
    have hgt : ¬ lineLengthForScreenRow row > column := by omega
    unfold queryCursorForMarker
    rw [if_neg hgt]
    refine ⟨rfl, ?_⟩
    unfold positionCursorToRender
    simp [hL, pixelTopForScreenRow]
  · intro hlt
    have hgt : lineLengthForScreenRow row > column := hlt
    unfold queryCursorForMarker
    rw [if_pos hgt]
    refine ⟨rfl, ?_⟩
    unfold positionCursorToRender
    simp [hL, hR, pixelTopForScreenRow]

/-- C4 witness: the cursor-geometry theorem at a 5-character line with
cached offsets 21 and 30 for columns 3 and 4, for the in-line case. -/
theorem cursor_geometry_witness :
    pixelLeftForScreenRowAndColumn (fun r => r)
      (fun _ => some (fun k => if k = 3 then some 21 else
        if k = 4 then some 30 else none)) 2 3 = some 21 ∧
    pixelLeftForScreenRowAndColumn (fun r => r)
      (fun _ => some (fun k => if k = 3 then some 21 else
        if k = 4 then some 30 else none)) 2 4 = some 30 ∧
    (3 < 5 →
      (queryCursorForMarker (fun _ => 5) 2 3).1.columnWidth = 1 ∧
      positionCursorToRender 12 (fun r => r)
          (fun _ => some (fun k => if k = 3 then some 21 else
            if k = 4 then some 30 else none))
          (queryCursorForMarker (fun _ => 5) 2 3).1 =
        some ⟨2, 3, 1, (2 : Int) * 12, 21, 30 - 21⟩) ∧
    (queryCursorForMarker (fun _ => 5) 2 3).1.columnWidth = 1 :=
  ⟨rfl, rfl,
    (cursor_geometry (fun _ => 5) 12 (fun r => r)
      (fun _ => some (fun k => if k = 3 then some 21 else
        if k = 4 then some 30 else none)) 2 3 21 30 rfl rfl).2,
    ((cursor_geometry (fun _ => 5) 12 (fun r => r)
      (fun _ => some (fun k => if k = 3 then some 21 else
        if k = 4 then some 30 else none)) 2 3 21 30 rfl rfl).2
      (by omega)).1⟩

/-! ## Per-screen-line registries and `LineComponent` destruction
(source lines 29-31, 761-764) -/

/-- The component's three per-screen-line registries (lines 29-31):
`horizontalPixelPositionsByScreenLineId`, `lineNodesByScreenLineId` and
`textNodesByScreenLineId`, keyed by screen-line id.  Line nodes are
abstracted to presence, registered text nodes to their strings. -/
structure RenderRegistry where
  lineNodesByScreenLineId : Nat → Option Unit
  textNodesByScreenLineId : Nat → Option (List String)
  horizontalPixelPositionsByScreenLineId : Nat → Option PosMap

/-- Source `LineComponent.destroy` (lines 761-764): deletes the line's
entries from `lineNodesByScreenLineId` and `textNodesByScreenLineId`.
No statement in the source ever deletes from
`horizontalPixelPositionsByScreenLineId` (its only writes are the
`set` calls at lines 548 and 588), so the field is left unchanged. -/
def LineComponent.destroy (reg : RenderRegistry) (screenLineId : Nat) :
    RenderRegistry :=
  { reg with
    lineNodesByScreenLineId := fun i =>
      if i = screenLineId then none else reg.lineNodesByScreenLineId i
    textNodesByScreenLineId := fun i =>
      if i = screenLineId then none else reg.textNodesByScreenLineId i }

/-- C9 counterexample: a concrete registry holding line node, text nodes
and a horizontal-position cache entry for screen line 1; after
`LineComponent.destroy` evicts line 1 from the render set, its
horizontal-position cache entry is still present — refuting the claim
that an evicted line's cache entry is discarded (and hence that every
cached id is currently rendered). -/
theorem cache_eviction_counterexample :
    ((LineComponent.destroy
        (RenderRegistry.mk (fun i => if i = 1 then some () else none)
          (fun i => if i = 1 then some [" "] else none)
          (fun i => if i = 1 then some (fun c => if c = 0 then some 0
            else none) else none)) 1).lineNodesByScreenLineId 1).isNone =
      true ∧
    ((LineComponent.destroy
        (RenderRegistry.mk (fun i => if i = 1 then some () else none)
          (fun i => if i = 1 then some [" "] else none)
          (fun i => if i = 1 then some (fun c => if c = 0 then some 0
            else none) else none)) 1).textNodesByScreenLineId 1).isNone =
      true ∧
    ((LineComponent.destroy
        (RenderRegistry.mk (fun i => if i = 1 then some () else none)
          (fun i => if i = 1 then some [" "] else none)
          (fun i => if i = 1 then some (fun c => if c = 0 then some 0
            else none) else none)) 1).horizontalPixelPositionsByScreenLineId
        1).isSome = true :=
  ⟨rfl, rfl, rfl⟩

/-- C9 amended: destroying a line rendering removes exactly that line's
node and text-node registrations and leaves
`horizontalPixelPositionsByScreenLineId` entirely unchanged — the
horizontal position cache grows monotonically and an evicted line's
entry is retained, not discarded. -/
theorem destroy_keeps_horizontal_cache (reg : RenderRegistry) (i : Nat) :
    (LineComponent.destroy reg i).lineNodesByScreenLineId i = none ∧
    (LineComponent.destroy reg i).textNodesByScreenLineId i = none ∧
    (∀ j, j ≠ i →
      (LineComponent.destroy reg i).lineNodesByScreenLineId j =
        reg.lineNodesByScreenLineId j ∧
      (LineComponent.destroy reg i).textNodesByScreenLineId j =
        reg.textNodesByScreenLineId j) ∧
    (LineComponent.destroy reg i).horizontalPixelPositionsByScreenLineId =
      reg.horizontalPixelPositionsByScreenLineId := by
  refine ⟨by simp [LineComponent.destroy], by simp [LineComponent.destroy],
    ?_, rfl⟩
  intro j hj
  exact ⟨by simp [LineComponent.destroy, hj], by
    simp [LineComponent.destroy, hj]⟩

/-- C9 amended witness: the destroy theorem at a concrete registry and
id 5, with the inner hypothesis discharged at id 4. -/
theorem destroy_keeps_horizontal_cache_witness :
    ((LineComponent.destroy
        (RenderRegistry.mk (fun _ => some ()) (fun _ => some [" "])
          (fun _ => some (fun _ => none))) 5).lineNodesByScreenLineId 5 =
      none ∧
    (LineComponent.destroy
        (RenderRegistry.mk (fun _ => some ()) (fun _ => some [" "])
          (fun _ => some (fun _ => none))) 5).textNodesByScreenLineId 5 =
      none ∧
    (∀ j, j ≠ 5 →
      (LineComponent.destroy
          (RenderRegistry.mk (fun _ => some ()) (fun _ => some [" "])
            (fun _ => some (fun _ => none))) 5).lineNodesByScreenLineId j =
        (RenderRegistry.mk (fun _ => some ()) (fun _ => some [" "])
          (fun _ => some (fun _ => none))).lineNodesByScreenLineId j ∧
      (LineComponent.destroy
          (RenderRegistry.mk (fun _ => some ()) (fun _ => some [" "])
            (fun _ => some (fun _ => none))) 5).textNodesByScreenLineId j =
        (RenderRegistry.mk (fun _ => some ()) (fun _ => some [" "])
          (fun _ => some (fun _ => none))).textNodesByScreenLineId j) ∧
    (LineComponent.destroy
        (RenderRegistry.mk (fun _ => some ()) (fun _ => some [" "])
          (fun _ => some (fun _ => none))) 5).horizontalPixelPositionsByScreenLineId =
      (RenderRegistry.mk (fun _ => some ()) (fun _ => some [" "])
        (fun _ => some (fun _ => none))).horizontalPixelPositionsByScreenLineId) ∧
    ((4 : Nat) ≠ 5) :=
  ⟨destroy_keeps_horizontal_cache
      (RenderRegistry.mk (fun _ => some ()) (fun _ => some [" "])
        (fun _ => some (fun _ => none))) 5,
    by decide⟩

/-! ## `LineComponent` construction (source lines 708-757) -/

/-- The display-layer services consumed by the `LineComponent`
constructor (source lines 726-731, 749): tag-code classification and the
fold-marker sentinel. -/
structure DisplayLayer where
  isOpenTagCode : Int → Bool
  isCloseTagCode : Int → Bool
  foldCharacter : String

/-- JS `lineText.substr(startIndex, tagCode)` (source line 735): a
non-positive length yields the empty string; a negative start counts
from the end of the string, clamped at 0. -/
def jsSubstr (s : String) (start len : Int) : String :=
  if len ≤ 0 then ""
  else
    ((s.toList.drop
      (if start < 0 then (max ((s.length : Int) + start) 0).toNat
       else min start.toNat s.length)).take len.toNat).asString

/-- JS `lineText.endsWith(suffix)` (source line 749), evaluated over the
character lists. -/
def jsEndsWith (s suffix : String) : Bool :=
  suffix.toList.isSuffixOf s.toList

/-- Modelled from the spec: the source (line 753) appends a text node
holding `ZERO_WIDTH_NBSP`, a constant whose declaration is not part of
the provided source file; the spec and the source comment describe it as
a zero-width no-break space, i.e. U+FEFF. -/
def ZERO_WIDTH_NBSP : String := "\uFEFF"

/-- The tag-code walk of the `LineComponent` constructor (source lines
720-741), restricted to the state the registered text nodes depend on:
`startIndex` and the accumulated `textNodes`.  A close or open tag code
only reparents the current scope span (lines 726-733) and touches
neither; a zero tag code is skipped (line 725); any other tag code
appends the text node `lineText.substr(startIndex, tagCode)` and adds
`tagCode` to `startIndex` (lines 735-738). -/
def lineTextNodesLoop (dl : DisplayLayer) (lineText : String) :
    List Int → Int → List String → Int × List String
  | [], startIndex, textNodes => (startIndex, textNodes)
  | tagCode :: rest, startIndex, textNodes =>
    if tagCode ≠ 0 then
      if dl.isCloseTagCode tagCode then
        lineTextNodesLoop dl lineText rest startIndex textNodes
      else if dl.isOpenTagCode tagCode then
        lineTextNodesLoop dl lineText rest startIndex textNodes
      else
        lineTextNodesLoop dl lineText rest (startIndex + tagCode)
          (textNodes ++ [jsSubstr lineText startIndex tagCode])
    else
      lineTextNodesLoop dl lineText rest startIndex textNodes

/-- The text nodes the `LineComponent` constructor registers in
`textNodesByScreenLineId` (source lines 716-756): the walk over the tag
codes, then — when no text was consumed (`startIndex === 0`, line 743) —
a single space node (lines 744-746), and — when the line ends with the
fold-marker sentinel (line 749) — a zero-width no-break-space node
(lines 753-755). -/
def lineComponentTextNodes (dl : DisplayLayer) (lineText : String)
    (tagCodes : List Int) : List String :=
  if jsEndsWith lineText dl.foldCharacter then
    (if (lineTextNodesLoop dl lineText tagCodes 0 []).1 = 0 then
      (lineTextNodesLoop dl lineText tagCodes 0 []).2 ++ [" "]
     else (lineTextNodesLoop dl lineText tagCodes 0 []).2) ++
      [ZERO_WIDTH_NBSP]
  else
    if (lineTextNodesLoop dl lineText tagCodes 0 []).1 = 0 then
      (lineTextNodesLoop dl lineText tagCodes 0 []).2 ++ [" "]
    else (lineTextNodesLoop dl lineText tagCodes 0 []).2

theorem lineTextNodesLoop_acc_ne (dl : DisplayLayer) (lineText : String) :
    ∀ (tags : List Int) (startIndex : Int) (textNodes : List String),
      textNodes ≠ [] →
      (lineTextNodesLoop dl lineText tags startIndex textNodes).2 ≠ [] := by
  intro tags
  induction tags with
  | nil => intro startIndex textNodes h; exact h
  | cons tagCode rest ih =>
    intro startIndex textNodes h
    unfold lineTextNodesLoop
    by_cases h0 : tagCode ≠ 0
    · simp only [if_pos h0]
      by_cases hc : dl.isCloseTagCode tagCode
      · simp only [if_pos hc]; exact ih startIndex textNodes h
      · simp only [if_neg hc]
        by_cases ho : dl.isOpenTagCode tagCode
        · simp only [if_pos ho]; exact ih startIndex textNodes h
        · simp only [if_neg ho]
          exact ih _ _ (by simp)
    · simp only [if_neg h0]; exact ih startIndex textNodes h

theorem lineTextNodesLoop_moved_ne (dl : DisplayLayer) (lineText : String) :
    ∀ (tags : List Int) (startIndex : Int) (textNodes : List String),
      (lineTextNodesLoop dl lineText tags startIndex textNodes).1 ≠
        startIndex →
      (lineTextNodesLoop dl lineText tags startIndex textNodes).2 ≠ [] := by
  intro tags
  induction tags with
  | nil => intro startIndex textNodes h; exact absurd rfl h
  | cons tagCode rest ih =>
    intro startIndex textNodes h
    unfold lineTextNodesLoop at h ⊢
    by_cases h0 : tagCode ≠ 0
    · simp only [if_pos h0] at h ⊢
      by_cases hc : dl.isCloseTagCode tagCode
      · simp only [if_pos hc] at h ⊢; exact ih startIndex textNodes h
      · simp only [if_neg hc] at h ⊢
        by_cases ho : dl.isOpenTagCode tagCode
        · simp only [if_pos ho] at h ⊢; exact ih startIndex textNodes h
        · simp only [if_neg ho] at h ⊢
          exact lineTextNodesLoop_acc_ne dl lineText rest _ _ (by simp)
    · simp only [if_neg h0] at h ⊢; exact ih startIndex textNodes h

/-- C10: for every screen line rendered by `LineComponent` the registered
text-node list is non-empty; when the tag-code walk consumed no text
(`startIndex = 0`) a single space node is registered, and a line ending
with the fold-marker sentinel gets a zero-width no-break-space node as
its last registered text node. -/
theorem line_component_text_nodes_nonempty (dl : DisplayLayer)
    (lineText : String) (tagCodes : List Int) :
    lineComponentTextNodes dl lineText tagCodes ≠ [] ∧
    ((lineTextNodesLoop dl lineText tagCodes 0 []).1 = 0 →
      " " ∈ lineComponentTextNodes dl lineText tagCodes) ∧
    (jsEndsWith lineText dl.foldCharacter = true →
      (lineComponentTextNodes dl lineText tagCodes).getLast? =
        some ZERO_WIDTH_NBSP) := by
  unfold lineComponentTextNodes
  by_cases hf : jsEndsWith lineText dl.foldCharacter
  · simp only [if_pos hf]
    by_cases h0 : (lineTextNodesLoop dl lineText tagCodes 0 []).1 = 0
    · simp only [if_pos h0]
      refine ⟨by simp, fun _ => by simp, fun _ => List.getLast?_concat _⟩
    · simp only [if_neg h0]
      refine ⟨by simp, fun hh => absurd hh h0, fun _ => List.getLast?_concat _⟩
  · simp only [if_neg hf]
    by_cases h0 : (lineTextNodesLoop dl lineText tagCodes 0 []).1 = 0
    · simp only [if_pos h0]
      refine ⟨by simp, fun _ => by simp, fun hh => absurd hh (by simpa using hf)⟩
    · simp only [if_neg h0]
      refine ⟨lineTextNodesLoop_moved_ne dl lineText tagCodes 0 [] h0,
        fun hh => absurd hh h0, fun hh => absurd hh (by simpa using hf)⟩

/-- C10 witness: a three-character line ending in the fold sentinel with
one text run of length 3 — the registered nodes are non-empty and end
with the zero-width no-break space; and an empty line with no tag codes
gets the single space node. -/
theorem line_component_text_nodes_nonempty_witness :
    lineComponentTextNodes
      (DisplayLayer.mk (fun _ => false) (fun _ => false) "!") "ab!" [3] ≠
      [] ∧
    jsEndsWith "ab!" "!" = true ∧
    (lineComponentTextNodes
      (DisplayLayer.mk (fun _ => false) (fun _ => false) "!") "ab!"
      [3]).getLast? = some ZERO_WIDTH_NBSP ∧
    (lineTextNodesLoop
      (DisplayLayer.mk (fun _ => false) (fun _ => false) "!") "" [] 0 []).1 =
      0 ∧
    " " ∈ lineComponentTextNodes
      (DisplayLayer.mk (fun _ => false) (fun _ => false) "!") "" [] :=
  ⟨(line_component_text_nodes_nonempty
      (DisplayLayer.mk (fun _ => false) (fun _ => false) "!") "ab!" [3]).1,
    by decide,
    (line_component_text_nodes_nonempty
      (DisplayLayer.mk (fun _ => false) (fun _ => false) "!") "ab!" [3]).2.2
      (by decide),
    rfl,
    (line_component_text_nodes_nonempty
      (DisplayLayer.mk (fun _ => false) (fun _ => false) "!") "" []).2.1 rfl⟩

end Atom
